import Mathlib

set_option autoImplicit false

/-!
Verification of the catalog-mapper CSV import core: the column-mapping
validator, the CSV ingestion adapter, the transform/export function and the
product-list image update, shallowly embedded from the React container
component (`validateAllColumnMappings`, `handleFileUpload`,
`handleUploadToAPI`, `handleImageUpload`).
-/

namespace CatalogMapper

/-- The `ColumnMapping` interface: one entry per CSV header.
`errorMessage?: string` is modelled as `Option String` (`none` = absent). -/
structure ColumnMapping where
  originalName : String
  mappedName : String
  isValid : Bool
  isMetadata : Bool
  errorMessage : Option String
deriving DecidableEq, Repr

/-- The hardcoded `requiredApiFields` list of the container component
(the fields of `ProductTypeDto`). -/
def requiredApiFields : List String :=
  ["companyID", "productTypeID", "companyName", "productName",
   "productDescription", "productImage", "globalProductCategory", "netContent"]

/-- The `dtoFieldUsage` map of `validateAllColumnMappings`: how many input
mappings claim DTO field `f`.  The code counts a mapping when
`!mapping.isMetadata && mapping.mappedName && mapping.mappedName !== '' &&
mapping.mappedName !== 'metaData'`; a missing key reads as count 0. -/
def dtoFieldUsage (ms : List ColumnMapping) (f : String) : Nat :=
  ms.countP (fun m =>
    !m.isMetadata && m.mappedName != "" && m.mappedName != "metaData" && m.mappedName == f)

/-- The source's blank test `!mapping.mappedName || mapping.mappedName.trim() === ''`
holds exactly when the string is empty or consists only of whitespace. -/
def strBlank (s : String) : Bool :=
  s.data.all (fun c => c.isWhitespace)

/-- One pass of the per-entry branch of `validateAllColumnMappings`, with the
usage counts already computed from the input list.  Branches in source order:
blank name, the `metaData` sentinel, a recognized DTO field (duplicate or ok),
and an unrecognized name. -/
def validateOne (usage : String → Nat) (m : ColumnMapping) : ColumnMapping :=
  if strBlank m.mappedName then
    { m with isValid := false,
             errorMessage := some "Please select a mapping for this column" }
  else if m.mappedName = "metaData" then
    { m with isValid := true, isMetadata := true, errorMessage := none }
  else if requiredApiFields.contains m.mappedName then
    if usage m.mappedName > 1 then
      { m with isValid := false, isMetadata := false,
               errorMessage := some ("\"" ++ m.mappedName ++ "\" is already mapped to another column. Each DTO field can only be mapped once.") }
    else
      { m with isValid := true, isMetadata := false, errorMessage := none }
  else
    { m with isValid := false, isMetadata := false,
             errorMessage := some ("\"" ++ m.mappedName ++ "\" is not a valid ProductTypeDto field. Please select from the available fields or choose metaData.") }

/-- `validateAllColumnMappings`: the usage counts are taken over the input
list, then every entry is recomputed from its own input value (the source's
`forEach` writes each index exactly once, reading the element as it was when
visited, so the pass is a `map`). -/
def validateAllColumnMappings (ms : List ColumnMapping) : List ColumnMapping :=
  ms.map (validateOne (dtoFieldUsage ms))

example :
    validateAllColumnMappings [⟨"A", "metaData", false, false, none⟩] =
      [⟨"A", "metaData", true, true, none⟩] := by decide

example :
    (validateAllColumnMappings
      [⟨"A", "companyID", false, false, none⟩, ⟨"B", "companyID", false, false, none⟩]).map
      (fun m => m.isValid) = [false, false] := by decide

/-- The initial seeding of one `ColumnMapping` per header at file load
(`initialMappings` in `handleFileUpload`): default to the `metaData`
sentinel, valid, no error. -/
def seedMapping (h : String) : ColumnMapping :=
  { originalName := h, mappedName := "metaData", isValid := true,
    isMetadata := true, errorMessage := none }

theorem validateOne_preserves_names (usage : String → Nat) (m : ColumnMapping) :
    (validateOne usage m).originalName = m.originalName ∧
      (validateOne usage m).mappedName = m.mappedName := by
  unfold validateOne
  split_ifs <;> exact ⟨rfl, rfl⟩

/-- C5: an entry whose `mappedName` is the metadata sentinel `"metaData"` is
always marked valid by the validator (`isValid = true`, `isMetadata = true`,
no error message), whatever the rest of the list contains. -/
theorem metaData_mapping_always_valid (ms : List ColumnMapping) (i : Nat)
    (m : ColumnMapping) (hm : ms[i]? = some m) (hname : m.mappedName = "metaData") :
    (validateAllColumnMappings ms)[i]? =
      some { m with isValid := true, isMetadata := true, errorMessage := none } := by
  unfold validateAllColumnMappings
  rw [List.getElem?_map, hm, Option.map_some']
  congr 1
  unfold validateOne
  rw [hname]
  rw [if_neg (by decide), if_pos rfl]

/-- Witness for C5 at a concrete two-entry list whose other entry is an
unrecognized mapping. -/
theorem metaData_mapping_always_valid_w :
    (validateAllColumnMappings
      [⟨"A", "metaData", false, false, none⟩, ⟨"B", "junk", true, false, none⟩])[0]? =
      some ⟨"A", "metaData", true, true, none⟩ :=
  metaData_mapping_always_valid _ 0 ⟨"A", "metaData", false, false, none⟩ rfl rfl

/-- C7: the validator is a total function: it returns a list of the same
length and order as its input, with every entry's `originalName` and
`mappedName` unchanged (only `isValid`, `isMetadata`, `errorMessage` are
recomputed).  The embedding is a pure `map`, so the input list is untouched
and no exception path exists. -/
theorem validateAllColumnMappings_total_shape (ms : List ColumnMapping) :
    (validateAllColumnMappings ms).length = ms.length ∧
      ∀ i : Nat,
        ((validateAllColumnMappings ms)[i]?).map (fun m => (m.originalName, m.mappedName)) =
          (ms[i]?).map (fun m => (m.originalName, m.mappedName)) := by
  refine ⟨by simp [validateAllColumnMappings], fun i => ?_⟩
  unfold validateAllColumnMappings
  rw [List.getElem?_map]
  cases hm : ms[i]? with
  | none => rfl
  | some m =>
    simp only [Option.map_some']
    rw [(validateOne_preserves_names (dtoFieldUsage ms) m).1,
        (validateOne_preserves_names (dtoFieldUsage ms) m).2]

/-- C9: every entry produced by the validator, and every entry produced by the
initial seeding at file load, satisfies `isValid = true ↔ errorMessage = none`:
no entry is both valid and carrying an error, or invalid without one. -/
theorem validator_isValid_iff_no_error :
    (∀ (ms : List ColumnMapping) (m : ColumnMapping),
        m ∈ validateAllColumnMappings ms → (m.isValid = true ↔ m.errorMessage = none)) ∧
      ∀ h : String, ((seedMapping h).isValid = true ↔ (seedMapping h).errorMessage = none) := by
  constructor
  · intro ms m hm
    rcases List.mem_map.mp hm with ⟨a, -, rfl⟩
    unfold validateOne
    split_ifs <;> simp
  · intro h
    simp [seedMapping]

/-- Witness for C9: a concrete validated entry satisfies the invariant. -/
theorem validator_isValid_iff_no_error_w :
    ((⟨"A", "metaData", true, true, none⟩ : ColumnMapping).isValid = true ↔
      (⟨"A", "metaData", true, true, none⟩ : ColumnMapping).errorMessage = none) :=
  validator_isValid_iff_no_error.1 [⟨"A", "metaData", false, false, none⟩] _ (by decide)

/-- C1 (failing input): two columns both carry `mappedName = "companyID"`, but
the second still has a stale `isMetadata = true` flag — exactly the state
`handleColumnMappingChange` hands to the validator when a column previously
routed to `metaData` is switched to `companyID` (the handler updates only
`mappedName`).  The usage count skips `isMetadata` entries, so the count is 1
and the validator marks BOTH entries valid instead of flagging both as
duplicates of `companyID`. -/
theorem validator_misses_duplicate_with_stale_metadata_flag :
    validateAllColumnMappings
      [⟨"A", "companyID", true, false, none⟩, ⟨"B", "companyID", true, true, none⟩] =
      [⟨"A", "companyID", true, false, none⟩, ⟨"B", "companyID", true, false, none⟩] := by
  decide

/-! ## Transform/export (`handleUploadToAPI`) -/

/-- JS object assignment `obj[k] = v` on an ordered association list:
overwrite in place when the key exists (JS objects keep the first insertion
position), otherwise append. -/
def setKey {α : Type} : List (String × α) → String → α → List (String × α)
  | [], k, v => [(k, v)]
  | (k', v') :: rest, k, v =>
      if k' = k then (k', v) :: rest else (k', v') :: setKey rest k v

/-- JS property read `obj[k]`: the stored value (keys are unique, `setKey`
never duplicates one), or `none` for `undefined`. -/
def getKey {α : Type} : List (String × α) → String → Option α
  | [], _ => none
  | (k', v) :: rest, k => if k = k' then some v else getKey rest k

/-- One parsed CSV row object (`CSVData`): original header name → raw cell
string, with JS object semantics. -/
abbrev CSVRow := List (String × String)

/-- A property value of a transformed record: a copied cell (`none` models JS
`undefined`, read from a row lacking the column) or the `metaData`
sub-object. -/
inductive FieldVal where
  | prim (v : Option String)
  | obj (m : List (String × Option String))
deriving DecidableEq, Repr

/-- A transformed output record (`newRow` in `handleUploadToAPI`), as an
ordered JS object. -/
abbrev TargetRecord := List (String × FieldVal)

/-- `mappedDtoFields` in `handleUploadToAPI`: the `mappedName`s of the valid,
non-metadata mappings. -/
def mappedDtoFields (ms : List ColumnMapping) : List String :=
  (ms.filter (fun m => !m.isMetadata && m.isValid)).map (fun m => m.mappedName)

/-- `missingFields` in `handleUploadToAPI`: required fields claimed by no
valid, non-metadata mapping. -/
def missingRequiredFields (ms : List ColumnMapping) : List String :=
  requiredApiFields.filter (fun f => !(mappedDtoFields ms).contains f)

/-- Key order of a JS `Map` built by repeated insertion: first occurrences. -/
def firstOccurrences : List String → List String
  | [] => []
  | x :: xs => x :: (firstOccurrences xs).filter (fun y => y != x)

/-- `duplicatedFields` in `handleUploadToAPI`: fields used by more than one
valid non-metadata mapping, in `Map` insertion order. -/
def duplicatedFields (ms : List ColumnMapping) : List String :=
  (firstOccurrences (mappedDtoFields ms)).filter
    (fun f => decide (1 < (mappedDtoFields ms).count f))

/-- JS `Array.prototype.join(', ')`. -/
def joinComma : List String → String
  | [] => ""
  | [x] => x
  | x :: y :: xs => x ++ ", " ++ joinComma (y :: xs)

/-- The per-row transform inside `handleUploadToAPI`: starting from
`{ id: "temp-" + index }`, copy each mapped column's cell under its
`mappedName`, route metadata columns into `metaDataObj`, and attach the
`metaData` sub-object only when it is non-empty. -/
def transformRow (ms : List ColumnMapping) (idx : Nat) (row : CSVRow) : TargetRecord :=
  let start : TargetRecord × List (String × Option String) :=
    ([("id", FieldVal.prim (some ("temp-" ++ toString idx)))], [])
  let built := ms.foldl
    (fun acc m =>
      if m.isMetadata then
        (acc.1, setKey acc.2 m.originalName (getKey row m.originalName))
      else
        (setKey acc.1 m.mappedName (FieldVal.prim (getKey row m.originalName)), acc.2))
    start
  if built.2.isEmpty then built.1
  else setKey built.1 "metaData" (FieldVal.obj built.2)

/-- `csvData.map((row, index) => ...)`: the whole transform pass. -/
def transformRows (ms : List ColumnMapping) (rows : List CSVRow) : List TargetRecord :=
  rows.enum.map (fun p => transformRow ms p.1 p.2)

/-- `handleUploadToAPI` up to the mocked upload: the three guards in source
order (invalid mappings, missing required fields, duplicated fields), then the
transform.  `Except.error` models the early `showError` return: no records are
produced and no state is committed. -/
def handleUploadToAPI (ms : List ColumnMapping) (rows : List CSVRow) :
    Except String (List TargetRecord) :=
  if 0 < (ms.filter (fun m => !m.isValid)).length then
    Except.error "Please fix all column mapping issues before uploading"
  else if 0 < (missingRequiredFields ms).length then
    Except.error ("Missing required fields: " ++ joinComma (missingRequiredFields ms))
  else if 0 < (duplicatedFields ms).length then
    Except.error ("Duplicate mappings found for: " ++ joinComma (duplicatedFields ms))
  else
    Except.ok (transformRows ms rows)

theorem mem_mappedDtoFields {ms : List ColumnMapping} {f : String} :
    f ∈ mappedDtoFields ms ↔
      ∃ m ∈ ms, m.isMetadata = false ∧ m.isValid = true ∧ m.mappedName = f := by
  unfold mappedDtoFields
  constructor
  · intro hf
    rcases List.mem_map.mp hf with ⟨m, hm, rfl⟩
    rcases List.mem_filter.mp hm with ⟨hms, hflags⟩
    simp only [Bool.and_eq_true, Bool.not_eq_true'] at hflags
    exact ⟨m, hms, hflags.1, hflags.2, rfl⟩
  · rintro ⟨m, hms, hmeta, hvalid, rfl⟩
    exact List.mem_map.mpr
      ⟨m, List.mem_filter.mpr ⟨hms, by simp [hmeta, hvalid]⟩, rfl⟩

theorem joinComma_covers {f : String} : ∀ {l : List String}, f ∈ l →
    f.data <:+: (joinComma l).data := by
  intro l
  induction l with
  | nil => intro hf; cases hf
  | cons x xs ih =>
    intro hf
    rcases List.mem_cons.mp hf with rfl | hf'
    · cases xs with
      | nil => exact List.infix_rfl
      | cons y ys =>
        exact ⟨[], (", " ++ joinComma (y :: ys)).data, by simp [joinComma, String.data_append]⟩
    · cases xs with
      | nil => cases hf'
      | cons y ys =>
        rcases ih hf' with ⟨s, t, hst⟩
        refine ⟨(x ++ ", ").data ++ s, t, ?_⟩
        simp [joinComma, String.data_append, ← hst]

/-- C2 (counterexample): with a single blank — hence invalid — mapping, every
required field is unclaimed, yet the export reports the generic
"fix all column mapping issues" message, which does not name the missing
required field `companyID`. -/
theorem export_error_can_omit_missing_fields :
    (∀ m ∈ [(⟨"A", "", false, false, some "Please select a mapping for this column"⟩ : ColumnMapping)],
        ¬(m.isValid = true ∧ m.isMetadata = false ∧ m.mappedName = "companyID")) ∧
      handleUploadToAPI
        [⟨"A", "", false, false, some "Please select a mapping for this column"⟩] [] =
        Except.error "Please fix all column mapping issues before uploading" ∧
      ¬("companyID".data <:+: "Please fix all column mapping issues before uploading".data) := by
  refine ⟨by decide, by rfl, by decide⟩

/-- C2 (amended): when every mapping is valid and some required field is
claimed by no valid non-metadata mapping, the export aborts with zero records
and a single error message that names every missing required field. -/
theorem export_missing_fields_aggregated (ms : List ColumnMapping) (rows : List CSVRow)
    (hval : ∀ m ∈ ms, m.isValid = true)
    (hmiss : ∃ f ∈ requiredApiFields,
      ∀ m ∈ ms, ¬(m.isValid = true ∧ m.isMetadata = false ∧ m.mappedName = f)) :
    ∃ msg : String, handleUploadToAPI ms rows = Except.error msg ∧
      ∀ f ∈ requiredApiFields,
        (∀ m ∈ ms, ¬(m.isValid = true ∧ m.isMetadata = false ∧ m.mappedName = f)) →
          f.data <:+: msg.data := by
  have hnotmem : ∀ f : String,
      (∀ m ∈ ms, ¬(m.isValid = true ∧ m.isMetadata = false ∧ m.mappedName = f)) →
        f ∉ mappedDtoFields ms := by
    intro f hf hmem
    rcases mem_mappedDtoFields.mp hmem with ⟨m, hm, hmeta, hvalid, hname⟩
    exact hf m hm ⟨hvalid, hmeta, hname⟩
  have hmissing : ∀ f ∈ requiredApiFields,
      (∀ m ∈ ms, ¬(m.isValid = true ∧ m.isMetadata = false ∧ m.mappedName = f)) →
        f ∈ missingRequiredFields ms := by
    intro f hfr hf
    refine List.mem_filter.mpr ⟨hfr, ?_⟩
    cases hcontains : (mappedDtoFields ms).contains f with
    | false => rfl
    | true => exact absurd (List.mem_of_elem_eq_true hcontains) (hnotmem f hf)
  have hfilter : ms.filter (fun m => !m.isValid) = [] :=
    List.filter_eq_nil_iff.mpr (fun m hm => by simp [hval m hm])
  obtain ⟨f₀, hf₀r, hf₀⟩ := hmiss
  have hne : 0 < (missingRequiredFields ms).length :=
    List.length_pos.mpr (List.ne_nil_of_mem (hmissing f₀ hf₀r hf₀))
  refine ⟨"Missing required fields: " ++ joinComma (missingRequiredFields ms), ?_, ?_⟩
  · unfold handleUploadToAPI
    rw [hfilter, if_neg (by simp), if_pos hne]
  · intro f hfr hf
    rcases joinComma_covers (hmissing f hfr hf) with ⟨s, t, hst⟩
    exact ⟨"Missing required fields: ".data ++ s, t, by
      simp [String.data_append, ← hst]⟩

/-- Witness for the amended C2 at a single valid `companyID` mapping: the
other seven required fields are missing and each is named in the message. -/
theorem export_missing_fields_aggregated_w :
    ∃ msg : String,
      handleUploadToAPI [⟨"A", "companyID", true, false, none⟩] [] = Except.error msg ∧
        ∀ f ∈ requiredApiFields,
          (∀ m ∈ [(⟨"A", "companyID", true, false, none⟩ : ColumnMapping)],
              ¬(m.isValid = true ∧ m.isMetadata = false ∧ m.mappedName = f)) →
            f.data <:+: msg.data :=
  export_missing_fields_aggregated _ _ (by decide) ⟨"productTypeID", by decide, by decide⟩

/-- The spec's scenario mappings: the six listed required fields mapped 1:1
and `Extra` routed to the metadata sentinel. -/
def scenarioMappings : List ColumnMapping :=
  [⟨"CoID", "companyID", true, false, none⟩,
   ⟨"PTID", "productTypeID", true, false, none⟩,
   ⟨"Name", "productName", true, false, none⟩,
   ⟨"Desc", "productDescription", true, false, none⟩,
   ⟨"Cat", "globalProductCategory", true, false, none⟩,
   ⟨"Amt", "netContent", true, false, none⟩,
   ⟨"Extra", "metaData", true, true, none⟩]

/-- The spec's scenario data row. -/
def scenarioRow : CSVRow :=
  [("CoID", "C1"), ("PTID", "P1"), ("Name", "Widget"), ("Desc", "A widget"),
   ("Cat", "Tools"), ("Amt", "10"), ("Extra", "note")]

/-- The scenario extended with the two required fields the spec's scenario
leaves unmapped (`companyName`, `productImage`). -/
def scenarioMappingsFull : List ColumnMapping :=
  scenarioMappings ++
    [⟨"CoName", "companyName", true, false, none⟩,
     ⟨"Img", "productImage", true, false, none⟩]

/-- The scenario row extended with cells for the two extra columns. -/
def scenarioRowFull : CSVRow :=
  scenarioRow ++ [("CoName", "Acme"), ("Img", "img.png")]

/-- C3 (counterexample): the component's `requiredApiFields` also contains
`companyName` and `productImage`, so the spec's scenario does not export
successfully — it aborts with a missing-fields error and zero records. -/
theorem scenario_export_fails_missing_two_fields :
    handleUploadToAPI scenarioMappings [scenarioRow] =
      Except.error "Missing required fields: companyName, productImage" := by
  rfl

/-- C3 (amended): the scenario as given aborts naming `companyName` and
`productImage`; with those two fields also mapped 1:1, the export succeeds
with exactly one record whose `metaData` sub-object is `{"Extra": "note"}`. -/
theorem scenario_export_amended :
    handleUploadToAPI scenarioMappings [scenarioRow] =
        Except.error "Missing required fields: companyName, productImage" ∧
      handleUploadToAPI scenarioMappingsFull [scenarioRowFull] =
        Except.ok
          [[("id", FieldVal.prim (some "temp-0")),
            ("companyID", FieldVal.prim (some "C1")),
            ("productTypeID", FieldVal.prim (some "P1")),
            ("productName", FieldVal.prim (some "Widget")),
            ("productDescription", FieldVal.prim (some "A widget")),
            ("globalProductCategory", FieldVal.prim (some "Tools")),
            ("netContent", FieldVal.prim (some "10")),
            ("companyName", FieldVal.prim (some "Acme")),
            ("productImage", FieldVal.prim (some "img.png")),
            ("metaData", FieldVal.obj [("Extra", some "note")])]] :=
  ⟨rfl, rfl⟩

/-- C6: the transform has no cross-row and no cross-run state: the output at
index `i` is a function of the mapping list, the index and the row at index
`i` alone, so any two row lists agreeing at `i` transform identically there
(and re-running on the same inputs is definitionally the same value, the
embedding being a pure function extracted from a `map`). -/
theorem transformRows_deterministic_rowwise (ms : List ColumnMapping)
    (rows1 rows2 : List CSVRow) (i : Nat) (h : rows1[i]? = rows2[i]?) :
    (transformRows ms rows1)[i]? = (transformRows ms rows2)[i]? := by
  unfold transformRows
  rw [List.getElem?_map, List.getElem?_map, List.getElem?_enum, List.getElem?_enum, h]

/-- Witness for C6: two concrete row lists agreeing at index 0. -/
theorem transformRows_deterministic_rowwise_w :
    (transformRows [⟨"A", "companyID", true, false, none⟩] [[("A", "x")]])[0]? =
      (transformRows [⟨"A", "companyID", true, false, none⟩]
        [[("A", "x")], [("A", "y")]])[0]? :=
  transformRows_deterministic_rowwise _ _ _ 0 rfl

/-! ## Product list CRUD (`handleImageUpload`) -/

/-- The `ProductTypeDto` interface.  `id?: string` is `Option String`;
`productDescription: any` carries only opaque text here; `metaData` is the
optional catch-all object. -/
structure ProductTypeDto where
  id : Option String
  companyID : String
  productTypeID : String
  companyName : String
  productName : String
  productDescription : String
  productImage : String
  globalProductCategory : String
  netContent : Int
  metaData : Option (List (String × String))
deriving DecidableEq, Repr

/-- `handleImageUpload`: replace the whole product list with a mapped copy in
which products whose `id` equals the given identifier get the new image
reference. -/
def handleImageUpload (ps : List ProductTypeDto) (pid : String) (url : String) :
    List ProductTypeDto :=
  ps.map (fun p => if p.id = some pid then { p with productImage := url } else p)

/-- C8: the image-reference replacement preserves length and order; the
product at each position is either returned unchanged (id mismatch) or
changed only in `productImage` (id match) — every other field is carried over
verbatim by the record update. -/
theorem handleImageUpload_frame (ps : List ProductTypeDto) (pid url : String) :
    (handleImageUpload ps pid url).length = ps.length ∧
      ∀ (i : Nat) (p : ProductTypeDto), ps[i]? = some p →
        (handleImageUpload ps pid url)[i]? =
          some (if p.id = some pid then { p with productImage := url } else p) := by
  refine ⟨by simp [handleImageUpload], fun i p hp => ?_⟩
  unfold handleImageUpload
  rw [List.getElem?_map, hp, Option.map_some']

/-- A sample product used by witnesses. -/
def sampleProduct (i : String) : ProductTypeDto :=
  ⟨some i, "c", "pt", "cn", "pn", "pd", "img", "cat", 1, none⟩

/-- Witness for C8: updating product "1" leaves product "2" untouched. -/
theorem handleImageUpload_frame_w :
    (handleImageUpload [sampleProduct "1", sampleProduct "2"] "1" "u")[1]? =
      some (sampleProduct "2") :=
  (handleImageUpload_frame [sampleProduct "1", sampleProduct "2"] "1" "u").2 1
    (sampleProduct "2") rfl

/-! ## CSV ingestion (`handleFileUpload`) -/

/-- `file.name.endsWith('.csv')`, modelled on the character lists (the
core `String.endsWith` does not reduce in the kernel). -/
def strEndsWith (s suffix : String) : Bool :=
  suffix.data.isSuffixOf s.data

/-- The JS object built per data row:
`headers.forEach((header, index) => obj[header] = row[index] || '')` —
a missing or empty cell stores the empty string.  Recursion carries the
running column index and the object built so far. -/
def rowObjAux (row : List String) : Nat → List String → CSVRow → CSVRow
  | _, [], acc => acc
  | i, h :: hs, acc => rowObjAux row (i + 1) hs (setKey acc h ((row[i]?).getD ""))

/-- One `csvObjects` entry of `handleFileUpload`. -/
def rowObj (headers row : List String) : CSVRow :=
  rowObjAux row 0 headers []

/-- The committed ingestion state: `setOriginalColumns`, `setColumnMappings`,
`setCsvData`. -/
structure IngestState where
  originalColumns : List String
  columnMappings : List ColumnMapping
  csvData : List CSVRow
deriving DecidableEq, Repr

/-- `handleFileUpload` with the parse callback inlined: inputs are the file's
MIME type and name, the parser's structural error count, and the parsed line
matrix.  `Except.error` models an early `showError` return: nothing is
committed.  On success the headers are the first line, the data rows are the
remaining lines with blank-celled rows dropped, and one `metaData`-seeded
mapping is created per header. -/
def handleFileUpload (fileType fileName : String) (parseErrors : Nat)
    (data : List (List String)) : Except String IngestState :=
  if fileType != "text/csv" && !strEndsWith fileName ".csv" then
    Except.error "Please upload a valid CSV file"
  else if 0 < parseErrors then
    Except.error "Error parsing CSV file"
  else if data.length < 2 then
    Except.error "CSV file must contain header and at least one data row"
  else
    let headers := data.headD []
    let rows := (data.drop 1).filter (fun r => r.any (fun c => !strBlank c))
    Except.ok ⟨headers, headers.map seedMapping, rows.map (rowObj headers)⟩

/-- C4 (counterexample): a CSV whose only data row is blank-celled passes the
`data.length < 2` check — which runs before the blank-row filter — so
ingestion succeeds, committing one seeded mapping and zero data rows, even
though fewer than two logical lines remain after blank-row filtering. -/
theorem ingestion_accepts_blank_only_data_rows :
    handleFileUpload "text/csv" "f.csv" 0 [["A"], [" "]] =
      Except.ok ⟨["A"], [seedMapping "A"], []⟩ := by
  rfl

/-- C4 (amended): ingestion fails exactly when the file is not CSV-like, the
parser reports errors, or the parser delivers fewer than two lines — the
two-line check runs before the adapter's own blank-row filter.  A header-only
CSV therefore errors and commits nothing. -/
theorem handleFileUpload_failure_modes :
    (∀ (ft fn : String) (errs : Nat) (data : List (List String)),
        (∃ st, handleFileUpload ft fn errs data = Except.ok st) ↔
          ((ft = "text/csv" ∨ strEndsWith fn ".csv" = true) ∧
            errs = 0 ∧ 2 ≤ data.length)) ∧
      ∀ (fn : String) (h : List String),
        handleFileUpload "text/csv" fn 0 [h] =
          Except.error "CSV file must contain header and at least one data row" := by
  constructor
  · intro ft fn errs data
    unfold handleFileUpload
    split_ifs with h1 h2 h3
    · simp only [Bool.and_eq_true, bne_iff_ne, Bool.not_eq_true'] at h1
      constructor
      · rintro ⟨st, hst⟩; cases hst
      · rintro ⟨hcsv | hcsv, -, -⟩
        · exact absurd hcsv h1.1
        · rw [hcsv] at h1; cases h1.2
    · constructor
      · rintro ⟨st, hst⟩; cases hst
      · rintro ⟨-, herr, -⟩; omega
    · constructor
      · rintro ⟨st, hst⟩; cases hst
      · rintro ⟨-, -, hlen⟩; omega
    · refine ⟨fun _ => ⟨?_, by omega, by omega⟩, fun _ => ⟨_, rfl⟩⟩
      rcases Bool.and_eq_false_iff.mp (Bool.not_eq_true _ ▸ h1 :
          (ft != "text/csv" && !strEndsWith fn ".csv") = false) with hb | hb
      · exact Or.inl (by simpa using hb)
      · exact Or.inr (by simpa using hb)
  · intro fn h
    rfl

/-- Witness for the amended C4: a two-line CSV ingests successfully. -/
theorem handleFileUpload_failure_modes_w :
    ∃ st, handleFileUpload "text/csv" "a.csv" 0 [["A"], ["1"]] = Except.ok st :=
  (handleFileUpload_failure_modes.1 "text/csv" "a.csv" 0 [["A"], ["1"]]).mpr
    ⟨Or.inl rfl, rfl, by decide⟩

theorem getKey_setKey {α : Type} (l : List (String × α)) (k k' : String) (v : α) :
    getKey (setKey l k v) k' = if k' = k then some v else getKey l k' := by
  induction l with
  | nil => simp [setKey, getKey]
  | cons hd tl ih =>
    obtain ⟨k0, v0⟩ := hd
    by_cases h0 : k0 = k
    · subst h0
      simp only [setKey, if_pos rfl, getKey]
      split_ifs <;> rfl
    · simp only [setKey, if_neg h0, getKey, ih]
      split_ifs with h1 h2 h3 <;> try rfl
      exact absurd (h1.symm.trans h2) h0

theorem rowObjAux_total (row : List String) (k : String) :
    ∀ (hs : List String) (i : Nat) (acc : CSVRow),
      (k ∈ hs ∨ ∃ s, getKey acc k = some s) →
      ∃ s, getKey (rowObjAux row i hs acc) k = some s := by
  intro hs
  induction hs with
  | nil =>
    intro i acc hacc
    rcases hacc with h | h
    · cases h
    · exact h
  | cons hd tl ih =>
    intro i acc hacc
    show ∃ s, getKey (rowObjAux row (i + 1) tl (setKey acc hd ((row[i]?).getD ""))) k = some s
    apply ih
    by_cases hk : k = hd
    · exact Or.inr ⟨(row[i]?).getD "", by rw [getKey_setKey, if_pos hk]⟩
    · rcases hacc with hmem | ⟨s, hsk⟩
      · rcases List.mem_cons.mp hmem with rfl | hmem'
        · exact absurd rfl hk
        · exact Or.inl hmem'
      · exact Or.inr ⟨s, by rw [getKey_setKey, if_neg hk]; exact hsk⟩

theorem rowObjAux_blank (row : List String) (k : String) :
    ∀ (hs : List String) (i : Nat) (acc : CSVRow), row.length ≤ i →
      (k ∈ hs ∨ getKey acc k = some "") →
      getKey (rowObjAux row i hs acc) k = some "" := by
  intro hs
  induction hs with
  | nil =>
    intro i acc _ hacc
    rcases hacc with h | h
    · cases h
    · exact h
  | cons hd tl ih =>
    intro i acc hi hacc
    have hnone : row[i]? = none := List.getElem?_eq_none hi
    show getKey (rowObjAux row (i + 1) tl (setKey acc hd ((row[i]?).getD ""))) k = some ""
    apply ih (i + 1) _ (by omega)
    by_cases hk : k = hd
    · right
      rw [getKey_setKey, if_pos hk, hnone]
      rfl
    · rcases hacc with hmem | hacc'
      · rcases List.mem_cons.mp hmem with rfl | hmem'
        · exact absurd rfl hk
        · exact Or.inl hmem'
      · right
        rw [getKey_setKey, if_neg hk]
        exact hacc'

theorem rowObjAux_append (row : List String) :
    ∀ (t d : List String) (i : Nat) (acc : CSVRow),
      rowObjAux row i (t ++ d) acc =
        rowObjAux row (i + t.length) d (rowObjAux row i t acc) := by
  intro t
  induction t with
  | nil => intro d i acc; simp [rowObjAux]
  | cons hd tl ih =>
    intro d i acc
    show rowObjAux row (i + 1) (tl ++ d) (setKey acc hd ((row[i]?).getD "")) =
      rowObjAux row (i + (tl.length + 1)) d
        (rowObjAux row (i + 1) tl (setKey acc hd ((row[i]?).getD "")))
    rw [ih]
    have harith : i + 1 + tl.length = i + (tl.length + 1) := by omega
    rw [harith]

/-- C10: every emitted row object is total on the header list — each header
name stores some string — and a header whose cells are absent (every
occurrence at column index ≥ the row's length) stores the empty string, so
the transform never reads `undefined` for a mapped column. -/
theorem rowObj_header_totality (headers row : List String) (k : String)
    (hmem : k ∈ headers) :
    (∃ s, getKey (rowObj headers row) k = some s) ∧
      (k ∉ headers.take row.length → getKey (rowObj headers row) k = some "") := by
  refine ⟨rowObjAux_total row k headers 0 [] (Or.inl hmem), fun hnot => ?_⟩
  by_cases hlen : row.length ≤ headers.length
  · have hsplit := List.take_append_drop row.length headers
    have htl : (headers.take row.length).length = row.length := by
      rw [List.length_take]; omega
    have hkd : k ∈ headers.drop row.length := by
      have hm2 : k ∈ headers.take row.length ++ headers.drop row.length := by
        rw [hsplit]; exact hmem
      rcases List.mem_append.mp hm2 with h | h
      · exact absurd h hnot
      · exact h
    unfold rowObj
    conv_lhs => rw [← hsplit]
    rw [rowObjAux_append]
    refine rowObjAux_blank row k _ _ _ ?_ (Or.inl hkd)
    rw [Nat.zero_add, htl]
  · exfalso
    have htake : headers.take row.length = headers := List.take_of_length_le (by omega)
    exact hnot (by rw [htake]; exact hmem)

/-- Witness for C10: headers `["A", "B"]` with the one-cell row `["x"]` — the
missing cell for `B` is filled with the empty string. -/
theorem rowObj_header_totality_w :
    getKey (rowObj ["A", "B"] ["x"]) "B" = some "" :=
  (rowObj_header_totality ["A", "B"] ["x"] "B" (by decide)).2 (by decide)

end CatalogMapper
